import Mathlib

/-!
Verification of the distributed web crawler core (src/src/v3 and
src/src/robots_handler_async.py) against its natural-language
specification.  The Python source is shallowly embedded: pure functions
become Lean functions, Redis/Mongo state becomes explicit record state,
Python machine arithmetic becomes exact arithmetic over Nat/Int/Rat with
the relevant truncations made explicit, and fallible code returns
Option/Except.  External collaborators (Redis, MongoDB, hashlib, zlib,
mmh3, urlparse) are modelled by explicit state records or function
parameters, as noted at each definition.
-/

/-- Python int() applied to a nonnegative or negative rational: truncation
toward zero.  Used for the lock expiry computation ex = int(delay) in
PolitenessManager.can_crawl (politeness.py line 87). -/
def pyTrunc (q : ℚ) : ℤ :=
  q.num.tdiv q.den

/-- Split a character list at every occurrence of the separator character
(Python str.split for a one-character separator). -/
def listSplitOnChar (c : Char) : List Char → List (List Char)
  | [] => [[]]
  | x :: xs =>
    match listSplitOnChar c xs with
    | [] => [[x]]
    | g :: gs => if x == c then [] :: g :: gs else (x :: g) :: gs

/-- Python str.strip(): drop whitespace from both ends. -/
def trimChars (l : List Char) : List Char :=
  ((l.dropWhile Char.isWhitespace).reverse.dropWhile Char.isWhitespace).reverse

/-- Python str.lower() (ASCII case folding suffices for the inputs the
crawler handles). -/
def lowerChars (l : List Char) : List Char :=
  l.map Char.toLower

/-- Substring test on character lists: pat in s for Python strings;
the empty pattern is contained in everything, as in Python. -/
def listContainsSub : List Char → List Char → Bool
  | l, pat =>
    pat.isPrefixOf l ||
      match l with
      | [] => false
      | _ :: xs => listContainsSub xs pat

/-- Substring test: models the Python expression pat in s. -/
def strContains (s pat : String) : Bool :=
  listContainsSub s.data pat.data

/-- Python len(s): number of code points. -/
def strLen (s : String) : ℕ :=
  s.data.length

/-- Python s.endswith(suf). -/
def strEndsWith (s suf : String) : Bool :=
  suf.data.isSuffixOf s.data

/-- Python s.startswith(pre). -/
def strStartsWith (s pre : String) : Bool :=
  pre.data.isPrefixOf s.data

/-- len(s.encode("utf-8")): total UTF-8 byte length of a string. -/
def utf8Len (s : String) : ℕ :=
  (s.data.map Char.utf8Size).sum

/-- Parse a nonempty all-digit character list as a natural number. -/
def digitsToNat (l : List Char) : Option ℕ :=
  if l.isEmpty || !(l.all Char.isDigit) then none
  else some (l.foldl (fun acc c => 10 * acc + (c.toNat - 48)) 0)

/-- Decimal rendering of a natural number (helper for pyFloatStr), with
explicit fuel so that it evaluates by structural recursion. -/
def natToCharsAux : ℕ → ℕ → List Char
  | 0, _ => []
  | fuel + 1, n =>
    if n < 10 then [Char.ofNat (48 + n)]
    else natToCharsAux fuel (n / 10) ++ [Char.ofNat (48 + n % 10)]

def natToChars (n : ℕ) : List Char :=
  natToCharsAux (n + 1) n

/-- Association-list lookup, modelling a key/value read. -/
def alookup {α : Type} (l : List (String × α)) (k : String) : Option α :=
  (l.find? (fun p => p.1 == k)).map (fun p => p.2)

/-- Association-list write: overwrite the first binding of the key or
append a new one. -/
def aupsert {α : Type} (l : List (String × α)) (k : String) (v : α) :
    List (String × α) :=
  match l with
  | [] => [(k, v)]
  | (k', v') :: rest =>
    if k' == k then (k, v) :: rest else (k', v') :: aupsert rest k v

/-- A URL as produced by Python urlparse on an absolute http(s) URL:
scheme, netloc (host) and path.  urlparse itself is an external library;
the model works with the already-parsed structure. -/
structure Url where
  scheme : String
  host : String
  path : String
deriving DecidableEq

/-- The string the structured URL denotes (what the Python code passes
around as url). -/
def Url.render (u : Url) : String :=
  u.scheme ++ "://" ++ u.host ++ u.path

/-- PolitenessManager._extract_domain: returns scheme://netloc of the URL
(politeness.py lines 53-59). -/
def extractDomain (u : Url) : String :=
  u.scheme ++ "://" ++ u.host

/-- State of the Redis lock keys used by PolitenessManager: each lock key
maps to the absolute time at which it expires.  The stored value is
always the string "1", so only the expiry is kept.  A key whose expiry is
at or before the current time behaves as absent (Redis TTL expiry). -/
structure LockState where
  locks : List (String × ℚ)
deriving DecidableEq

/-- A single Redis SET key value NX EX seconds request as issued by
PolitenessManager.can_crawl (politeness.py lines 83-88). -/
structure SetNxReq where
  key : String
  value : String
  ex : ℤ
deriving DecidableEq

/-- Execute a SET ... NX EX request at time now.  Redis rejects a
nonpositive expiry with an error (redis-py raises ResponseError), modelled
as Except.error.  Otherwise the set succeeds iff the key is absent or
already expired, and on success the key expires ex seconds from now. -/
def redisSetNxEx (st : LockState) (now : ℚ) (req : SetNxReq) :
    Except Unit (Bool × LockState) :=
  if req.ex ≤ 0 then .error ()
  else
    match alookup st.locks req.key with
    | some e =>
      if now < e then .ok (false, st)
      else .ok (true, ⟨aupsert st.locks req.key (now + (req.ex : ℚ))⟩)
    | none => .ok (true, ⟨aupsert st.locks req.key (now + (req.ex : ℚ))⟩)

/-- PolitenessManager.can_crawl (politeness.py lines 65-97).  Inputs: the
manager's default_delay, the lock state, the current time, the URL and the
optional crawl_delay argument.  Python's crawl_delay or self.default_delay
makes both None and 0.0 fall back to the default.  Returns the list of
Redis set-if-absent requests issued (always exactly one) and the outcome:
true = lease acquired, false = host locked; error if Redis rejects the
expiry (ex = int(delay) nonpositive). -/
def can_crawl (defaultDelay : ℚ) (st : LockState) (now : ℚ) (u : Url)
    (crawlDelay : Option ℚ) : List SetNxReq × Except Unit (Bool × LockState) :=
  let domain := extractDomain u
  let lockKey := "lock:" ++ domain
  let delay : ℚ :=
    match crawlDelay with
    | none => defaultDelay
    | some d => if d = 0 then defaultDelay else d
  let req : SetNxReq := ⟨lockKey, "1", pyTrunc delay⟩
  ([req], redisSetNxEx st now req)

/-- A sequence of can_crawl attempts for one URL, all using the same
crawl_delay, at the given instants.  Returns the list of per-attempt
results (an attempt that errors out is recorded as false) and the final
lock state.  This is the step relation of claims C1/C2: each step is one
lease-acquisition attempt against the lock key's TTL state. -/
def runAttempts (defaultDelay : ℚ) (u : Url) (d : ℚ) :
    LockState → List ℚ → List Bool × LockState
  | st, [] => ([], st)
  | st, t :: ts =>
    match (can_crawl defaultDelay st t u (some d)).2 with
    | .ok (b, st') =>
      let r := runAttempts defaultDelay u d st' ts
      (b :: r.1, r.2)
    | .error _ =>
      let r := runAttempts defaultDelay u d st ts
      (false :: r.1, r.2)

/-- Plain key/value and hash-valued Redis keys, as used by the crawl-delay
bookkeeping.  TTLs on these keys (86400 s, cache_ttl) are irrelevant to
the claims settled here and are not tracked. -/
structure RedisKV where
  strings : List (String × String)
  hashes : List (String × List (String × String))
deriving DecidableEq

def RedisKV.empty : RedisKV := ⟨[], []⟩

/-- Redis GET. -/
def rget (r : RedisKV) (k : String) : Option String :=
  alookup r.strings k

/-- Redis HSET key field value. -/
def rhset (r : RedisKV) (k field v : String) : RedisKV :=
  let h := (alookup r.hashes k).getD []
  { r with hashes := aupsert r.hashes k (aupsert h field v) }

/-- Redis HGETALL key (empty list when the key is absent). -/
def rhgetall (r : RedisKV) (k : String) : List (String × String) :=
  (alookup r.hashes k).getD []

/-- Redis HGET key field. -/
def rhget (r : RedisKV) (k field : String) : Option String :=
  alookup (rhgetall r k) field

/-- Python float() on an unsigned decimal literal (optionally with a
fractional part), the formats exercised by the crawl-delay round-trip;
anything else is a ValueError, modelled as none.  float() ignores
surrounding whitespace. -/
def pyFloat (s : String) : Option ℚ :=
  match listSplitOnChar '.' (trimChars s.data) with
  | [a] => (digitsToNat a).map (fun n => (n : ℚ))
  | [a, b] =>
    match digitsToNat a, digitsToNat b with
    | some n, some m => some ((n : ℚ) + (m : ℚ) / (10 : ℚ) ^ b.length)
    | _, _ => none
  | _ => none

/-- Python str() of a float holding an integral nonnegative value renders
with a trailing .0 (e.g. str(7.0) = "7.0"); that is the only shape the
robots handler stores.  Other values are rendered as num/den (never
exercised by the settled claims). -/
def pyFloatStr (q : ℚ) : String :=
  if 0 ≤ q.num ∧ q.den = 1 then ⟨natToChars q.num.toNat⟩ ++ ".0"
  else ⟨natToChars q.num.natAbs⟩ ++ "/" ++ ⟨natToChars q.den⟩

/-- Python s.split(STR, 1)[1] for STR = ":" : everything after the first
colon (the callers only use it on strings containing a colon). -/
def afterFirstColon (s : List Char) : List Char :=
  match s with
  | [] => []
  | c :: cs => if c == ':' then cs else afterFirstColon cs

/-- PolitenessManager.get_crawl_delay (politeness.py lines 129-161):
try crawler:robots:delay:SCHEME://HOST, then the crawl_delay field of the
crawler:domain_state:SCHEME://HOST hash, then the manager's default.  An
empty or unparsable stored value falls through to the next step. -/
def get_crawl_delay (defaultDelay : ℚ) (r : RedisKV) (u : Url) : ℚ :=
  let domain := extractDomain u
  let step2 : ℚ :=
    match alookup (rhgetall r ("crawler:domain_state:" ++ domain)) "crawl_delay" with
    | some v => (pyFloat v).getD defaultDelay
    | none => defaultDelay
  match rget r ("crawler:robots:delay:" ++ domain) with
  | some v =>
    if v = "" then step2
    else match pyFloat v with
      | some f => f
      | none => step2
  | none => step2

/-- AsyncRobotsHandler._extract_crawl_delay (robots_handler_async.py lines
291-310): first line whose stripped, lowercased form starts with
"crawl-delay:", parsed as a float; a parse failure aborts (returns none,
the exception is caught). -/
def extract_crawl_delay (content : String) : Option ℚ :=
  match (listSplitOnChar '\n' content.data).find?
      (fun l => ("crawl-delay:".data).isPrefixOf (lowerChars (trimChars l))) with
  | none => none
  | some l =>
    pyFloat ⟨trimChars (afterFirstColon (lowerChars (trimChars l)))⟩

/-- The crawl-delay persistence step of
AsyncRobotsHandler._fetch_robots_for_domain (robots_handler_async.py lines
237-244) after a 200 response: if a truthy (nonzero) crawl-delay was
extracted, HSET domain:HOST crawl_delay str(delay).  Here HOST is the bare
netloc, without a scheme. -/
def persistCrawlDelay (r : RedisKV) (host content : String) : RedisKV :=
  match extract_crawl_delay content with
  | some d => if d ≠ 0 then rhset r ("domain:" ++ host) "crawl_delay" (pyFloatStr d) else r
  | none => r

/-- AsyncRobotsHandler.get_crawl_delay (robots_handler_async.py lines
312-329): HGET domain:HOST crawl_delay, default 1.0; empty or unparsable
values fall back to the default. -/
def robots_get_crawl_delay (r : RedisKV) (host : String) : ℚ :=
  match rhget r ("domain:" ++ host) "crawl_delay" with
  | some v => if v = "" then 1 else (pyFloat v).getD 1
  | none => 1

/-- DecentralizedWorker._calculate_priority (worker_v3.py lines 201-234),
operating on the raw URL string: base 100, minus 5 per depth unit, +5 for
index-ish endings, +3 if the lowercased URL contains a content keyword,
-10 if it contains a login keyword, -10 if longer than 200 characters,
clamped to at least 1.  Note both keyword tests run over the whole URL
string (including the scheme and host), not just the path. -/
def calculate_priority (url : String) (depth : ℕ) : ℚ :=
  let lowered : String := ⟨lowerChars url.data⟩
  let p1 : ℚ := 100
  let p2 : ℚ := p1 - (depth : ℚ) * 5
  let p3 : ℚ :=
    if strEndsWith url "/" || strEndsWith url "/index.html" then p2 + 5 else p2
  let p4 : ℚ :=
    if (["/blog/", "/article/", "/post/", "/docs/"].any
        (fun k => strContains lowered k)) then p3 + 3 else p3
  let p5 : ℚ :=
    if (["/login", "/signup", "/register", "/auth"].any
        (fun k => strContains lowered k)) then p4 - 10 else p4
  let p6 : ℚ := if strLen url > 200 then p5 - 10 else p5
  max p6 1

/-- The spec's priority heuristic as claim C8 states it: identical to the
code except that the two keyword tests look only at the URL path (so a
keyword occurring in the host does not fire).  Defined over the structured
URL, whose path component is available. -/
def specPriority (u : Url) (depth : ℕ) : ℚ :=
  let url := u.render
  let lowPath : String := ⟨lowerChars u.path.data⟩
  let adj : ℚ :=
    (if strEndsWith url "/" || strEndsWith url "/index.html" then 5 else 0)
    + (if (["/blog/", "/article/", "/post/", "/docs/"].any
        (fun k => strContains lowPath k)) then 3 else 0)
    - (if (["/login", "/signup", "/register", "/auth"].any
        (fun k => strContains lowPath k)) then 10 else 0)
    - (if strLen url > 200 then 10 else 0)
  max (100 - 5 * (depth : ℚ) + adj) 1

/-- The amended C8 heuristic: the spec's table-of-adjustments form, with
both keyword tests taken over the full lowercased URL string as the code
does. -/
def specPriorityFullUrl (url : String) (depth : ℕ) : ℚ :=
  let lowered : String := ⟨lowerChars url.data⟩
  let adj : ℚ :=
    (if strEndsWith url "/" || strEndsWith url "/index.html" then 5 else 0)
    + (if (["/blog/", "/article/", "/post/", "/docs/"].any
        (fun k => strContains lowered k)) then 3 else 0)
    - (if (["/login", "/signup", "/register", "/auth"].any
        (fun k => strContains lowered k)) then 10 else 0)
    - (if strLen url > 200 then 10 else 0)
  max (100 - 5 * (depth : ℚ) + adj) 1

/-- Sizing and hashing configuration of BloomFilter (bloom_filter.py).
mmh3.hash(url, seed) is an external library returning a signed 32-bit
integer; it is a parameter of the model.  size and hash_count are the
already-computed field values (their numeric derivation is modelled
separately for claim C7). -/
structure BloomCfg where
  size : ℕ
  hash_count : ℕ
  mmh3 : String → ℕ → ℤ

/-- The Redis bitmap behind the filter, as the set of bit positions that
are 1.  SETBIT only ever sets bits here (never clears), matching
BloomFilter.add/add_batch. -/
structure BloomState where
  bits : List ℕ
deriving DecidableEq

namespace BloomFilter

/-- BloomFilter._get_positions (bloom_filter.py lines 70-85):
mmh3.hash(url, i) % size for seeds i = 0..hash_count-1.  Python % always
returns a nonnegative result for a positive modulus, matching Int.emod. -/
def getPositionsOf (cfg : BloomCfg) (url : String) : List ℕ :=
  (List.range cfg.hash_count).map (fun i => ((cfg.mmh3 url i) % (cfg.size : ℤ)).toNat)

/-- Redis GETBIT on the modelled bitmap. -/
def getbit (st : BloomState) (pos : ℕ) : Bool :=
  st.bits.contains pos

/-- Redis SETBIT ... 1 on the modelled bitmap. -/
def setbit (st : BloomState) (pos : ℕ) : BloomState :=
  if st.bits.contains pos then st else ⟨pos :: st.bits⟩

/-- BloomFilter.add (bloom_filter.py lines 87-113): read the k bits, then
set all k bits; returns true iff some bit was unset (probably new). -/
def add (cfg : BloomCfg) (st : BloomState) (url : String) : Bool × BloomState :=
  let ps := getPositionsOf cfg url
  let alreadyExists := ps.all (getbit st)
  (!alreadyExists, ps.foldl setbit st)

/-- BloomFilter.contains (bloom_filter.py lines 115-135): true iff all k
bits are set. -/
def contains (cfg : BloomCfg) (st : BloomState) (url : String) : Bool :=
  (getPositionsOf cfg url).all (getbit st)

/-- BloomFilter.add_batch (bloom_filter.py lines 137-157): set every
position of every url (the returned count is just the batch length). -/
def add_batch (cfg : BloomCfg) (st : BloomState) (urls : List String) :
    ℕ × BloomState :=
  (urls.length, urls.foldl (fun s u => (getPositionsOf cfg u).foldl setbit s) st)

/-- The operations a worker can perform on the shared filter after an add:
further adds, batch adds, or BloomFilter.clear (which deletes the
bitmap). -/
inductive Op where
  | addUrl (u : String)
  | addBatch (us : List String)
  | clearAll
deriving DecidableEq

def applyOp (cfg : BloomCfg) (st : BloomState) : Op → BloomState
  | .addUrl u => (add cfg st u).2
  | .addBatch us => (add_batch cfg st us).2
  | .clearAll => ⟨[]⟩

def applyOps (cfg : BloomCfg) (st : BloomState) (ops : List Op) : BloomState :=
  ops.foldl (applyOp cfg) st

end BloomFilter

/-- A pages_metadata document (optimized_storage.py lines 153-166).
MongoDB ObjectIds are modelled as naturals allocated from a counter;
crawled_at (a wall-clock datetime) is omitted as no claim concerns it.
The source field name compression_ratio is rendered compression_rate
here. -/
structure MetaDoc where
  id : ℕ
  url : String
  domain : String
  depth : ℕ
  link_count : ℕ
  links_preview : List String
  content_hash : String
  content_size : ℕ
  compressed_size : ℕ
  compression_rate : ℚ
  worker_id : String
deriving DecidableEq

/-- A pages_content document (optimized_storage.py lines 169-173). -/
structure ContentDoc where
  page_id : ℕ
  compressed_html : List ℕ
  all_links : List String
deriving DecidableEq

/-- The in-memory statistics dictionary of OptimizedStorage. -/
structure StorageStats where
  pages_stored : ℕ
  bytes_original : ℕ
  bytes_compressed : ℕ
  compression_rate : ℚ
  batches_flushed : ℕ
deriving DecidableEq

/-- The state of OptimizedStorage: the two persisted MongoDB collections,
the two in-memory batch buffers, the ObjectId allocator and the stats. -/
structure StorageState where
  metadata : List MetaDoc
  content : List ContentDoc
  batch_size : ℕ
  metadata_batch : List MetaDoc
  content_batch : List ContentDoc
  nextId : ℕ
  stats : StorageStats
deriving DecidableEq

/-- The external libraries used by OptimizedStorage: hashlib.sha256(...)
.hexdigest() and zlib.compress(..., level=6).  Both are parameters of the
model; every theorem below holds for any instantiation. -/
structure ExtLibs where
  sha256hex : String → String
  zlibCompress : String → List ℕ

/-- MongoDB insert_many(..., ordered=False) on a collection with a unique
index on url: each batch document is inserted unless its url collides with
an already-present document (including ones inserted earlier in the same
batch); processing continues past failures.  Returns the new collection
and the ids actually persisted.  This single function covers both branches
of flush_batch step 1: when no document fails, result.inserted_ids is the
whole batch and equals this set; when some fail, the except-branch
re-query (find_one per batch _id, optimized_storage.py lines 203-211)
recovers exactly this set. -/
def insertManyUnordered : List MetaDoc → List MetaDoc → List MetaDoc × List ℕ
  | coll, [] => (coll, [])
  | coll, d :: ds =>
    if (coll.find? (fun m => m.url == d.url)).isSome then
      insertManyUnordered coll ds
    else
      let r := insertManyUnordered (coll ++ [d]) ds
      (r.1, d.id :: r.2)

/-- OptimizedStorage.flush_batch (optimized_storage.py lines 185-248):
bulk-insert the metadata batch unordered, compute the persisted id set,
insert exactly the content documents whose page_id is in that set, update
stats, and clear both buffers unconditionally. -/
def flush_batch (s : StorageState) : StorageState :=
  if s.metadata_batch.isEmpty then s
  else
    let r := insertManyUnordered s.metadata s.metadata_batch
    if r.2.isEmpty then
      { s with metadata := r.1, metadata_batch := [], content_batch := [] }
    else
      let contentToInsert :=
        s.content_batch.filter (fun c => r.2.contains c.page_id)
      let stats' : StorageStats :=
        { s.stats with
          pages_stored := s.stats.pages_stored + r.2.length,
          batches_flushed := s.stats.batches_flushed + 1,
          compression_rate :=
            if 0 < s.stats.bytes_original then
              (s.stats.bytes_compressed : ℚ) / (s.stats.bytes_original : ℚ)
            else s.stats.compression_rate }
      { s with
        metadata := r.1,
        content := s.content ++ contentToInsert,
        stats := stats',
        metadata_batch := [],
        content_batch := [] }

/-- OptimizedStorage.add_page (optimized_storage.py lines 115-183):
dedup against the persisted metadata collection by content hash, then
buffer a new metadata/content pair and flush when the batch is full.
Returns none for the uncaught ZeroDivisionError raised by
compression_ratio = compressed_size / original_size when the html encodes
to zero bytes (the stats mutation preceding the raise is discarded with
the exception). -/
def add_page (lib : ExtLibs) (s : StorageState) (url html : String)
    (links : List String) (domain : String) (depth : ℕ) (worker_id : String) :
    Option (Bool × StorageState) :=
  let content_hash := lib.sha256hex html
  if (s.metadata.find? (fun m => m.content_hash == content_hash)).isSome then
    some (false, s)
  else
    let page_id := s.nextId
    let compressed_html := lib.zlibCompress html
    let original_size := utf8Len html
    let compressed_size := compressed_html.length
    let stats1 := { s.stats with
      bytes_original := s.stats.bytes_original + original_size,
      bytes_compressed := s.stats.bytes_compressed + compressed_size }
    if original_size = 0 then none
    else
      let mdoc : MetaDoc :=
        ⟨page_id, url, domain, depth, links.length, links.take 100,
          content_hash, original_size, compressed_size,
          (compressed_size : ℚ) / (original_size : ℚ), worker_id⟩
      let cdoc : ContentDoc := ⟨page_id, compressed_html, links⟩
      let s' := { s with
        nextId := page_id + 1,
        stats := stats1,
        metadata_batch := s.metadata_batch ++ [mdoc],
        content_batch := s.content_batch ++ [cdoc] }
      let s'' := if s.batch_size ≤ s'.metadata_batch.length then flush_batch s'
        else s'
      some (true, s'')

/-- The §3 invariant: every persisted PageContent has a PageMetadata with
matching id. -/
def ContentLinked (s : StorageState) : Prop :=
  ∀ c ∈ s.content, ∃ m ∈ s.metadata, m.id = c.page_id

/-- A fresh OptimizedStorage with the given batch size. -/
def freshStorage (bs : ℕ) : StorageState :=
  ⟨[], [], bs, [], [], 0, ⟨0, 0, 0, 0, 0⟩⟩

/-- A concrete instantiation of the external libraries for counterexample
runs: the hash of a string is the string itself (so byte-equal bodies get
equal hashes, exactly as with the real SHA-256), and compression yields a
one-byte summary. -/
def demoLibs : ExtLibs := ⟨fun s => s, fun s => [utf8Len s]⟩

/-- A frontier entry as the worker uses it in the pull/requeue path: url
and depth.  The parent and added_at fields ride along in the JSON blob
but play no role in any claim settled here and are omitted. -/
structure Entry where
  url : Url
  depth : ℕ
deriving DecidableEq

/-- Redis ZPOPMAX on a sorted set represented as member/score pairs:
remove and return a maximum-score member (the first such member when
scores tie). -/
def zpopmax (l : List (Entry × ℚ)) : Option ((Entry × ℚ) × List (Entry × ℚ)) :=
  match l with
  | [] => none
  | x :: xs =>
    let best := xs.foldl (fun b y => if b.2 < y.2 then y else b) x
    some (best, l.erase best)

/-- Redis ZADD: update the member's score, or insert the member. -/
def zadd (front : List (Entry × ℚ)) (e : Entry) (score : ℚ) :
    List (Entry × ℚ) :=
  if front.any (fun x => x.1 == e) then
    front.map (fun x => if x.1 == e then (e, score) else x)
  else front ++ [(e, score)]

/-- ReQueueManager.re_queue_url (politeness.py lines 224-243): re-insert
the entry with priority max(current - penalty, 1.0). -/
def re_queue_url (penalty : ℚ) (front : List (Entry × ℚ)) (e : Entry)
    (currentPr : ℚ) : List (Entry × ℚ) :=
  zadd front e (max (currentPr - penalty) 1)

/-- The outcome of one iteration of DecentralizedWorker.start. -/
inductive WorkerOutcome where
  | continued
  | exitMaxPages
  | exitIdle
deriving DecidableEq

/-- The worker-visible state: shared Redis data (delay keys, politeness
locks, frontier) plus the worker's loop counters and clock. -/
structure WorkerState where
  redis : RedisKV
  locks : LockState
  frontier : List (Entry × ℚ)
  time : ℚ
  idleCount : ℕ
  pagesCrawled : ℕ
  reQueuedCount : ℕ

/-- Configuration of a DecentralizedWorker run.  crawlPage abstracts
DecentralizedWorker.crawl_page (fetch, parse, link expansion, storage):
claim C9 concerns only the pull/lease/idle control flow, which never
enters crawl_page on the traces at issue. -/
structure WorkerCfg where
  defaultDelay : ℚ
  penalty : ℚ
  maxPages : Option ℕ
  idleTimeout : ℚ
  crawlPage : WorkerState → Entry → ℚ → WorkerState

/-- DecentralizedWorker.pull_url_from_frontier (worker_v3.py lines
236-271): ZPOPMAX the frontier; if empty return None; else resolve the
crawl delay, try the politeness lock, and on failure requeue the entry at
reduced priority and return None.  A Redis error inside (e.g. an invalid
zero expiry) is swallowed by the except-branch and also returns None —
with the entry already popped and not requeued. -/
def pull_url_from_frontier (cfg : WorkerCfg) (ws : WorkerState) :
    Option (Entry × ℚ) × WorkerState :=
  match zpopmax ws.frontier with
  | none => (none, ws)
  | some ((e, p), rest) =>
    let delay := get_crawl_delay cfg.defaultDelay ws.redis e.url
    match (can_crawl cfg.defaultDelay ws.locks ws.time e.url (some delay)).2 with
    | .ok (true, locks') =>
      (some (e, p), { ws with frontier := rest, locks := locks' })
    | .ok (false, locks') =>
      (none, { ws with
        frontier := re_queue_url cfg.penalty rest e p,
        locks := locks',
        reQueuedCount := ws.reQueuedCount + 1 })
    | .error _ => (none, { ws with frontier := rest })

/-- The worker's max-pages guard (worker_v3.py line 471): Python
truthiness makes both None and 0 skip the check. -/
def maxReached (cfg : WorkerCfg) (ws : WorkerState) : Bool :=
  match cfg.maxPages with
  | some mp => decide (mp ≠ 0) && decide (mp ≤ ws.pagesCrawled)
  | none => false

/-- One iteration of the DecentralizedWorker.start loop (worker_v3.py
lines 469-493): check the page cap; pull; on None increment the idle
counter, exit once idle_count >= idle_timeout / 5, else sleep 5 s and
continue; on an entry reset the idle counter and crawl the page. -/
def startStep (cfg : WorkerCfg) (ws : WorkerState) :
    WorkerOutcome × WorkerState :=
  if maxReached cfg ws then (.exitMaxPages, ws)
  else
    match pull_url_from_frontier cfg ws with
    | (none, ws') =>
      let ic := ws'.idleCount + 1
      if cfg.idleTimeout / 5 ≤ (ic : ℚ) then
        (.exitIdle, { ws' with idleCount := ic })
      else
        (.continued, { ws' with idleCount := ic, time := ws'.time + 5 })
    | (some (e, p), ws') =>
      (.continued, cfg.crawlPage { ws' with idleCount := 0 } e p)

/-- Concrete worker data for the C9 run: one frontier entry for a host
whose politeness lock is held far into the future, worker defaults
(politeness default 1.0, penalty 5.0, no page cap) and idle_timeout 5. -/
def entry9 : Entry := ⟨⟨"https", "a.test", "/x"⟩, 0⟩

def cfg9 : WorkerCfg := ⟨1, 5, none, 5, fun ws _ _ => ws⟩

def ws9 : WorkerState :=
  ⟨RedisKV.empty, ⟨[("lock:https://a.test", 1000000)]⟩, [(entry9, 100)],
   0, 0, 0, 0⟩

/-- Python int() on a real value: truncation toward zero.  Used for the
two int(...) conversions in BloomFilter.__init__, whose float arithmetic
is idealised as exact real arithmetic. -/
noncomputable def pyTruncR (x : ℝ) : ℤ :=
  if 0 ≤ x then ⌊x⌋ else ⌈x⌉

/-- The sizing parameters computed by BloomFilter.__init__. -/
structure BloomSizing where
  size : ℤ
  hash_count : ℤ

/-- BloomFilter.__init__ (bloom_filter.py lines 54-56):
size = int(-(capacity * log(error_rate)) / (log 2)^2) and
hash_count = int((size / capacity) * log 2), over the reals. -/
noncomputable def bloomInit (capacity : ℕ) (error_rate : ℝ) : BloomSizing :=
  let size := pyTruncR (-((capacity : ℝ) * Real.log error_rate) / (Real.log 2) ^ 2)
  let hash_count := pyTruncR (((size : ℝ) / (capacity : ℝ)) * Real.log 2)
  ⟨size, hash_count⟩

/-! Theorems. -/

theorem pyTrunc_eq_floor (q : ℚ) (h : 0 ≤ q) : pyTrunc q = ⌊q⌋ := by
  rw [pyTrunc, Int.tdiv_eq_ediv (Rat.num_nonneg.2 h) (by positivity), Rat.floor_def]

theorem pyTrunc_le (q : ℚ) (h : 0 ≤ q) : (pyTrunc q : ℚ) ≤ q := by
  rw [pyTrunc_eq_floor q h]; exact Int.floor_le q

theorem one_le_pyTrunc (q : ℚ) (h : 1 ≤ q) : 1 ≤ pyTrunc q := by
  rw [pyTrunc_eq_floor q (by linarith)]
  exact_mod_cast Int.le_floor.2 (by exact_mod_cast h)

theorem alookup_aupsert {α : Type} (l : List (String × α)) (k : String) (v : α) :
    alookup (aupsert l k v) k = some v := by
  induction l with
  | nil => simp [alookup, aupsert]
  | cons p rest ih =>
    by_cases h : p.1 = k
    · simp [alookup, aupsert, h]
    · simpa [alookup, aupsert, h] using ih

/-- While the lock key is held with expiry at least E, every attempt
strictly before E fails and leaves the lock state unchanged. -/
theorem runAttempts_all_locked (dflt : ℚ) (u : Url) (d : ℚ) (E e : ℚ)
    (st : LockState)
    (hl : alookup st.locks ("lock:" ++ extractDomain u) = some e) (hE : E ≤ e)
    (ts : List ℚ) (hts : ∀ t ∈ ts, t < E) :
    runAttempts dflt u d st ts = (List.replicate ts.length false, st) := by
  induction ts with
  | nil => simp [runAttempts]
  | cons t ts' ih =>
    have ht : t < e := lt_of_lt_of_le (hts t (by simp)) hE
    have hrest := ih (fun x hx => hts x (by simp [hx]))
    by_cases hex : pyTrunc (if d = 0 then dflt else d) ≤ 0
    · simp [runAttempts, can_crawl, redisSetNxEx, hex, hrest, List.replicate_succ]
    · simp [runAttempts, can_crawl, redisSetNxEx, hex, hl, ht, hrest,
        List.replicate_succ]

theorem runAttempts_cons_ok (dflt : ℚ) (u : Url) (d : ℚ) (st : LockState)
    (t : ℚ) (ts : List ℚ) (b : Bool) (st' : LockState)
    (h : (can_crawl dflt st t u (some d)).2 = .ok (b, st')) :
    runAttempts dflt u d st (t :: ts) =
      (b :: (runAttempts dflt u d st' ts).1, (runAttempts dflt u d st' ts).2) := by
  simp [runAttempts, h]

/-- C1 (amended): for every host and any two lease-acquisition attempts
(PolitenessManager.can_crawl) at instants t1 ≤ t2 with
t2 − t1 < int(crawl_delay) — the lock TTL the code actually sets, which is
the crawl delay truncated to an integer, not the crawl delay itself — at
most one of the two attempts succeeds, even with arbitrary interleaved
attempts by other workers at instants up to t2.  The 'two successes within
one truncated-delay window' state is unreachable. -/
theorem can_crawl_window_at_most_one_success (dflt : ℚ) (u : Url) (d : ℚ)
    (st : LockState) (t1 t2 : ℚ) (mid : List ℚ) (hd : 1 ≤ d)
    (hmid : ∀ t ∈ mid, t ≤ t2) (h12 : t1 ≤ t2)
    (hwin : t2 - t1 < (pyTrunc d : ℚ)) :
    ¬ ((runAttempts dflt u d st (t1 :: mid ++ [t2])).1.head? = some true ∧
       (runAttempts dflt u d st (t1 :: mid ++ [t2])).1.getLast? = some true) := by
  rintro ⟨h1, h2⟩
  rw [List.cons_append] at h1 h2
  have hd0 : ¬ d = 0 := by intro h; rw [h] at hd; norm_num at hd
  have hex : ¬ pyTrunc d ≤ 0 := by have := one_le_pyTrunc d hd; omega
  by_cases hfail : ∃ e, alookup st.locks ("lock:" ++ extractDomain u) = some e ∧ t1 < e
  · rcases hfail with ⟨e, he, hte⟩
    have hok : (can_crawl dflt st t1 u (some d)).2 = .ok (false, st) := by
      simp [can_crawl, redisSetNxEx, hd0, hex, he, hte]
    rw [runAttempts_cons_ok dflt u d st t1 (mid ++ [t2]) false st hok] at h1
    simp at h1
  · push_neg at hfail
    have hok : (can_crawl dflt st t1 u (some d)).2 =
        .ok (true, ⟨aupsert st.locks ("lock:" ++ extractDomain u)
          (t1 + (pyTrunc d : ℚ))⟩) := by
      rcases halo : alookup st.locks ("lock:" ++ extractDomain u) with _ | e
      · simp [can_crawl, redisSetNxEx, hd0, hex, halo]
      · have hne : ¬ t1 < e := not_lt.2 (hfail e halo)
        simp [can_crawl, redisSetNxEx, hd0, hex, halo, hne]
    rw [runAttempts_cons_ok dflt u d st t1 (mid ++ [t2]) true _ hok] at h2
    have hlock : alookup
        (aupsert st.locks ("lock:" ++ extractDomain u) (t1 + (pyTrunc d : ℚ)))
        ("lock:" ++ extractDomain u) = some (t1 + (pyTrunc d : ℚ)) :=
      alookup_aupsert st.locks ("lock:" ++ extractDomain u) (t1 + (pyTrunc d : ℚ))
    have hlt : ∀ t ∈ mid ++ [t2], t < t1 + (pyTrunc d : ℚ) := by
      intro t ht
      have ht2 : t ≤ t2 := by
        rcases List.mem_append.1 ht with hm | hm
        · exact hmid t hm
        · simp at hm; exact le_of_eq hm
      linarith
    rw [runAttempts_all_locked dflt u d (t1 + (pyTrunc d : ℚ))
      (t1 + (pyTrunc d : ℚ)) _ hlock le_rfl (mid ++ [t2]) hlt] at h2
    rw [show (mid ++ [t2]).length = mid.length + 1 by simp] at h2
    rw [List.replicate_succ' (n := mid.length)] at h2
    rw [show (true : Bool) :: (List.replicate mid.length false ++ [false]) =
      ((true : Bool) :: List.replicate mid.length false) ++ [false] by simp] at h2
    rw [List.getLast?_concat] at h2
    simp at h2

/-- C1 counterexample to the claim as stated: with crawl delay 5/2 the
code sets the lock TTL to int(5/2) = 2 seconds, so two attempts at t = 0
and t = 2 — separated by less than the crawl delay 5/2 — both succeed. -/
theorem c1_two_successes_within_delay :
    (runAttempts 1 ⟨"https", "example.com", "/page"⟩ (5/2) ⟨[]⟩ [0, 2]).1 =
      [true, true] ∧ (2:ℚ) - 0 < 5/2 := by
  constructor
  · have h25 : pyTrunc (5/2) = 2 := by norm_num [pyTrunc]; try decide
    norm_num [runAttempts, can_crawl, redisSetNxEx, alookup, aupsert,
      extractDomain, h25]
  · norm_num

/-- C1 witness: with integral crawl delay 3, attempts at t = 0 and t = 2
(closer together than the truncated delay) cannot both succeed. -/
theorem c1_window_witness :
    ¬ ((runAttempts 1 ⟨"https", "example.com", "/page"⟩ 3 ⟨[]⟩
          ((0:ℚ) :: [] ++ [2])).1.head? = some true ∧
       (runAttempts 1 ⟨"https", "example.com", "/page"⟩ 3 ⟨[]⟩
          ((0:ℚ) :: [] ++ [2])).1.getLast? = some true) :=
  can_crawl_window_at_most_one_success 1 ⟨"https", "example.com", "/page"⟩ 3
    ⟨[]⟩ 0 2 [] (by norm_num) (by simp) (by norm_num)
    (by rw [show pyTrunc 3 = 3 by norm_num [pyTrunc]; try decide]; norm_num)

/-- C2 (amended): for every url and every delay_s > 0,
PolitenessManager.can_crawl issues exactly one atomic set-if-absent on the
key lock:SCHEME://HOST with value "1" and an expiry equal to delay_s
truncated toward zero (Python int(delay)) — not rounded up and with no
one-second minimum, so for delay_s = 2.5 the expiry is 2 and for
delay_s = 0.5 it is 0 (which Redis rejects as an invalid expiry). -/
theorem can_crawl_issues_one_request (dflt : ℚ) (st : LockState) (now : ℚ)
    (u : Url) (d : ℚ) (hd : 0 < d) :
    (can_crawl dflt st now u (some d)).1 =
      [⟨"lock:" ++ (u.scheme ++ "://" ++ u.host), "1", pyTrunc d⟩] := by
  simp [can_crawl, extractDomain, hd.ne']

/-- C2 counterexample to the claim as stated: for delay_s = 5/2 the issued
expiry is 2, not the claimed ceiling 3; for delay_s = 1/2 it is 0, not the
claimed minimum 1. -/
theorem c2_expiry_not_ceiling :
    (can_crawl 1 ⟨[]⟩ 0 ⟨"https", "example.com", "/page"⟩ (some (5/2))).1 =
      [⟨"lock:https://example.com", "1", 2⟩] ∧
    (2:ℤ) ≠ ⌈(5/2:ℚ)⌉ ∧
    (can_crawl 1 ⟨[]⟩ 0 ⟨"https", "example.com", "/page"⟩ (some (1/2))).1 =
      [⟨"lock:https://example.com", "1", 0⟩] ∧
    (0:ℤ) ≠ max ⌈(1/2:ℚ)⌉ 1 := by
  refine ⟨?_, ?_, ?_, ?_⟩
  · have h25 : pyTrunc (5/2) = 2 := by norm_num [pyTrunc]; try decide
    simp [can_crawl, extractDomain, h25]
    try decide
  · have h3 : ⌈(5/2:ℚ)⌉ = 3 := by rw [Int.ceil_eq_iff]; norm_num
    omega
  · have h05 : pyTrunc ((2:ℚ)⁻¹) = 0 := by norm_num [pyTrunc]; try decide
    simp [can_crawl, extractDomain, h05]
    try decide
  · have h1 : ⌈(1/2:ℚ)⌉ = 1 := by rw [Int.ceil_eq_iff]; norm_num
    omega

/-- C2 witness: at delay 5/2 the single issued request has the lock key,
value "1" and truncated expiry. -/
theorem c2_request_witness :
    (0:ℚ) < 5/2 ∧
    (can_crawl 1 ⟨[]⟩ 0 ⟨"https", "example.com", "/page"⟩ (some (5/2))).1 =
      [⟨"lock:" ++ ("https" ++ "://" ++ "example.com"), "1", pyTrunc (5/2)⟩] :=
  ⟨by norm_num,
   can_crawl_issues_one_request 1 ⟨[]⟩ 0 ⟨"https", "example.com", "/page"⟩
     (5/2) (by norm_num)⟩


/-- C4: the claim fails on the code.  At the failing input — robots.txt
for host example.com declaring Crawl-delay: 7 — the fetcher persists the
extracted delay under domain:example.com (bare netloc), a key none of
PolitenessManager.get_crawl_delay's resolution steps reads (they read
crawler:robots:delay:https://example.com and
crawler:domain_state:https://example.com).  A subsequent get_crawl_delay
for a URL on that host therefore returns the configured default 1.0, not
the declared 7.0; only the robots handler's own reader, which nothing in
the worker calls, sees the 7. -/
theorem robots_delay_never_reaches_politeness :
    get_crawl_delay 1
      (persistCrawlDelay RedisKV.empty "example.com"
        "User-agent: *\nCrawl-delay: 7")
      ⟨"https", "example.com", "/page"⟩ = 1 ∧
    robots_get_crawl_delay
      (persistCrawlDelay RedisKV.empty "example.com"
        "User-agent: *\nCrawl-delay: 7")
      "example.com" = 7 ∧
    extract_crawl_delay "User-agent: *\nCrawl-delay: 7" = some 7 ∧
    (1:ℚ) ≠ 7 := by
  refine ⟨by decide, ?_, by decide, by norm_num⟩
  have hv : rhget (persistCrawlDelay RedisKV.empty "example.com"
      "User-agent: *\nCrawl-delay: 7") "domain:example.com" "crawl_delay" =
      some "7.0" := by
    decide
  have h2 : pyFloat "7.0" = some 7 := by
    have ha : listSplitOnChar '.' (trimChars "7.0".data) = [['7'], ['0']] := by
      decide
    have hb : digitsToNat ['7'] = some 7 := by decide
    have hc : digitsToNat ['0'] = some 0 := by decide
    simp only [pyFloat, ha, hb, hc]
    norm_num
  simp only [robots_get_crawl_delay]
  rw [show ("domain:" ++ "example.com" : String) = "domain:example.com" from by
    decide]
  rw [hv]
  simp [h2]

/-- C8 (amended): for every url and depth, the insertion priority computed
by the worker equals the spec heuristic with one change forced by the
code: both keyword tests (+3 content, -10 login) are evaluated over the
full lowercased URL string, not just the path, so a keyword anywhere in
the URL — including the host — triggers the adjustment. -/
theorem calculate_priority_eq_spec_full_url (url : String) (depth : ℕ) :
    calculate_priority url depth = specPriorityFullUrl url depth := by
  simp only [calculate_priority, specPriorityFullUrl]
  split_ifs <;> congr 1 <;> ring

/-- C8 counterexample to the claim as stated: for the URL
https://login.example.com/ at depth 0, whose keyword appears only in the
host, the code computes 100 + 5 - 10 = 95 (the login penalty fires on the
full URL string) while the spec heuristic of the claim computes
100 + 5 = 105. -/
theorem priority_login_host_differs :
    calculate_priority (Url.render ⟨"https", "login.example.com", "/"⟩) 0 = 95 ∧
    specPriority ⟨"https", "login.example.com", "/"⟩ 0 = 105 ∧
    (95:ℚ) ≠ 105 := by
  have hren : Url.render ⟨"https", "login.example.com", "/"⟩ =
      "https://login.example.com/" := by decide
  refine ⟨?_, ?_, by norm_num⟩
  · rw [hren]
    have hend : (strEndsWith "https://login.example.com/" "/" ||
        strEndsWith "https://login.example.com/" "/index.html") = true := by decide
    have hcon : (["/blog/", "/article/", "/post/", "/docs/"].any
        (fun k => strContains ⟨lowerChars "https://login.example.com/".data⟩ k))
        = false := by decide
    have hlog : (["/login", "/signup", "/register", "/auth"].any
        (fun k => strContains ⟨lowerChars "https://login.example.com/".data⟩ k))
        = true := by decide
    have hlen : (strLen "https://login.example.com/" > 200) = False := by decide
    simp only [calculate_priority, hend, hcon, hlog, hlen, if_true, if_false]
    norm_num
  · have hend : (strEndsWith (Url.render ⟨"https", "login.example.com", "/"⟩) "/" ||
        strEndsWith (Url.render ⟨"https", "login.example.com", "/"⟩)
          "/index.html") = true := by decide
    have hcon : (["/blog/", "/article/", "/post/", "/docs/"].any
        (fun k => strContains ⟨lowerChars ("/" : String).data⟩ k)) = false := by
      decide
    have hlog : (["/login", "/signup", "/register", "/auth"].any
        (fun k => strContains ⟨lowerChars ("/" : String).data⟩ k)) = false := by
      decide
    have hlen : (strLen (Url.render ⟨"https", "login.example.com", "/"⟩) > 200)
        = False := by decide
    simp only [specPriority, hend, hcon, hlog, hlen, if_true, if_false]
    norm_num

theorem setbit_subset (st : BloomState) (p : ℕ) :
    st.bits ⊆ (BloomFilter.setbit st p).bits := by
  unfold BloomFilter.setbit
  split <;> simp [List.subset_cons_of_subset, List.Subset.refl]

theorem mem_setbit (st : BloomState) (p : ℕ) :
    p ∈ (BloomFilter.setbit st p).bits := by
  unfold BloomFilter.setbit
  split <;> simp_all [List.elem_iff]

theorem foldl_setbit_subset (ps : List ℕ) :
    ∀ st : BloomState, st.bits ⊆ (ps.foldl BloomFilter.setbit st).bits := by
  induction ps with
  | nil => intro st; simp
  | cons p ps ih => intro st x hx; exact ih _ (setbit_subset st p hx)

theorem mem_foldl_setbit (p : ℕ) (ps : List ℕ) :
    ∀ st : BloomState, p ∈ ps → p ∈ (ps.foldl BloomFilter.setbit st).bits := by
  induction ps with
  | nil => intro st hp; simp at hp
  | cons q qs ih =>
    intro st hp
    rcases List.mem_cons.1 hp with h | h
    · subst h; exact foldl_setbit_subset qs _ (mem_setbit st p)
    · exact ih _ h

theorem add_batch_subset (cfg : BloomCfg) (us : List String) :
    ∀ st : BloomState, st.bits ⊆ (BloomFilter.add_batch cfg st us).2.bits := by
  unfold BloomFilter.add_batch
  induction us with
  | nil => intro st; simp
  | cons u us ih =>
    intro st x hx
    exact ih _ (foldl_setbit_subset (BloomFilter.getPositionsOf cfg u) st hx)

theorem applyOp_subset (cfg : BloomCfg) (st : BloomState) (op : BloomFilter.Op)
    (h : op ≠ BloomFilter.Op.clearAll) :
    st.bits ⊆ (BloomFilter.applyOp cfg st op).bits := by
  match op with
  | .addUrl u => exact foldl_setbit_subset _ st
  | .addBatch us => exact add_batch_subset cfg us st
  | .clearAll => exact absurd rfl h

theorem applyOps_subset (cfg : BloomCfg) (ops : List BloomFilter.Op) :
    ∀ st : BloomState, (∀ op ∈ ops, op ≠ BloomFilter.Op.clearAll) →
      st.bits ⊆ (BloomFilter.applyOps cfg st ops).bits := by
  induction ops with
  | nil => intro st _; simp [BloomFilter.applyOps]
  | cons op ops ih =>
    intro st h x hx
    have h1 : op ≠ BloomFilter.Op.clearAll := h op (List.mem_cons_self op ops)
    have h2 : ∀ o ∈ ops, o ≠ BloomFilter.Op.clearAll :=
      fun o ho => h o (List.mem_cons_of_mem op ho)
    have hstep := applyOp_subset cfg st op h1 hx
    have hrec := ih (BloomFilter.applyOp cfg st op) h2 hstep
    simpa [BloomFilter.applyOps] using hrec

/-- C6: the approximate URL filter has no false negatives.  For every url
u, once BloomFilter.add(u) has executed, every subsequent contains(u)
returns true across any further sequence of add/add_batch operations
(i.e. as long as the filter is not cleared): add sets exactly the k bit
positions contains later tests, and bits are only ever set. -/
theorem bloom_no_false_negatives (cfg : BloomCfg) (st : BloomState)
    (u : String) (ops : List BloomFilter.Op)
    (h : ∀ op ∈ ops, op ≠ BloomFilter.Op.clearAll) :
    BloomFilter.contains cfg
      (BloomFilter.applyOps cfg (BloomFilter.add cfg st u).2 ops) u = true := by
  unfold BloomFilter.contains
  rw [List.all_eq_true]
  intro p hp
  unfold BloomFilter.getbit
  rw [List.elem_iff]
  apply applyOps_subset cfg ops _ h
  exact mem_foldl_setbit p _ st hp

/-- C6 witness: a concrete filter configuration and operation sequence. -/
theorem bloom_no_false_negatives_witness :
    (∀ op ∈ ([.addBatch ["https://a.test/", "https://b.test/"],
              .addUrl "https://c.test/"] : List BloomFilter.Op),
        op ≠ BloomFilter.Op.clearAll) ∧
    BloomFilter.contains ⟨16, 3, fun s i => (strLen s * 7 + (i : ℤ)) - 5⟩
      (BloomFilter.applyOps ⟨16, 3, fun s i => (strLen s * 7 + (i : ℤ)) - 5⟩
        (BloomFilter.add ⟨16, 3, fun s i => (strLen s * 7 + (i : ℤ)) - 5⟩
          ⟨[]⟩ "https://u.test/").2
        [.addBatch ["https://a.test/", "https://b.test/"],
         .addUrl "https://c.test/"])
      "https://u.test/" = true :=
  ⟨by decide,
   bloom_no_false_negatives ⟨16, 3, fun s i => (strLen s * 7 + (i : ℤ)) - 5⟩
     ⟨[]⟩ "https://u.test/"
     [.addBatch ["https://a.test/", "https://b.test/"],
      .addUrl "https://c.test/"] (by decide)⟩

theorem insertMany_mem_mono (batch : List MetaDoc) :
    ∀ (coll : List MetaDoc) (m : MetaDoc), m ∈ coll →
      m ∈ (insertManyUnordered coll batch).1 := by
  induction batch with
  | nil => intro coll m hm; simpa [insertManyUnordered] using hm
  | cons d ds ih =>
    intro coll m hm
    by_cases hf : (coll.find? (fun x => x.url == d.url)).isSome = true
    · simpa [insertManyUnordered, hf] using ih coll m hm
    · simpa [insertManyUnordered, hf] using ih (coll ++ [d]) m (by simp [hm])

theorem insertMany_ids_have_docs (batch : List MetaDoc) :
    ∀ (coll : List MetaDoc) (i : ℕ), i ∈ (insertManyUnordered coll batch).2 →
      ∃ m ∈ (insertManyUnordered coll batch).1, m.id = i := by
  induction batch with
  | nil => intro coll i hi; simp [insertManyUnordered] at hi
  | cons d ds ih =>
    intro coll i hi
    by_cases hf : (coll.find? (fun x => x.url == d.url)).isSome = true
    · simp only [insertManyUnordered, if_pos hf] at hi ⊢
      exact ih coll i hi
    · simp only [insertManyUnordered, if_neg hf] at hi ⊢
      rcases List.mem_cons.1 hi with h | h
      · subst h
        exact ⟨d, insertMany_mem_mono ds (coll ++ [d]) d (by simp), rfl⟩
      · exact ih (coll ++ [d]) i h

/-- C5: flush_batch writes metadata and content in lock-step — a content
document is bulk-inserted only if its page_id is among the metadata ids
actually persisted in step 1 (the model's insertManyUnordered covers both
the fully-successful branch and the partial-failure re-query branch, which
compute the same persisted-id set) — so the invariant that every persisted
PageContent has a PageMetadata with matching id is preserved by any
flush. -/
theorem flush_batch_preserves_content_linked (s : StorageState)
    (h : ContentLinked s) : ContentLinked (flush_batch s) := by
  unfold ContentLinked flush_batch
  by_cases hempty : s.metadata_batch.isEmpty = true
  · simpa [hempty] using h
  · simp only [if_neg hempty]
    by_cases hids :
        (insertManyUnordered s.metadata s.metadata_batch).2.isEmpty = true
    · simp only [hids, if_true, reduceIte]
      intro c hc
      rcases h c hc with ⟨m, hm, hid⟩
      exact ⟨m, insertMany_mem_mono _ _ _ hm, hid⟩
    · simp only [hids, if_false, reduceIte]
      intro c hc
      rcases List.mem_append.1 hc with hc1 | hc2
      · rcases h c hc1 with ⟨m, hm, hid⟩
        exact ⟨m, insertMany_mem_mono _ _ _ hm, hid⟩
      · have hp := List.of_mem_filter hc2
        have hmem : c.page_id ∈
            (insertManyUnordered s.metadata s.metadata_batch).2 := by
          simpa [List.elem_iff] using hp
        exact insertMany_ids_have_docs _ _ _ hmem

/-- C5 witness: a state with one buffered metadata/content pair satisfies
the invariant before and after the flush. -/
theorem flush_batch_content_linked_witness :
    ContentLinked ⟨[], [], 5,
      [⟨0, "https://w.test/", "w.test", 0, 0, [], "h", 1, 1, 1, "w"⟩],
      [⟨0, [1], []⟩], 1, ⟨0, 0, 0, 0, 0⟩⟩ ∧
    ContentLinked (flush_batch ⟨[], [], 5,
      [⟨0, "https://w.test/", "w.test", 0, 0, [], "h", 1, 1, 1, "w"⟩],
      [⟨0, [1], []⟩], 1, ⟨0, 0, 0, 0, 0⟩⟩) :=
  ⟨by simp [ContentLinked],
   flush_batch_preserves_content_linked _ (by simp [ContentLinked])⟩

/-- C3 (amended): content deduplication is enforced only against pages
already persisted at the moment of the call — if some flushed
PageMetadata carries the html body's hash (in particular when a batch
flush happened between two body-equal add_page calls), the second call
returns false and changes nothing, so no second pair with that hash is
added by it. -/
theorem add_page_dedup_against_persisted (lib : ExtLibs) (s : StorageState)
    (url html : String) (links : List String) (domain : String) (depth : ℕ)
    (wid : String)
    (h : ∃ m ∈ s.metadata, m.content_hash = lib.sha256hex html) :
    add_page lib s url html links domain depth wid = some (false, s) := by
  have hf : (s.metadata.find?
      (fun m => m.content_hash == lib.sha256hex html)).isSome = true := by
    rw [List.find?_isSome]
    rcases h with ⟨m, hm, he⟩
    exact ⟨m, hm, by simp [he]⟩
  simp [add_page, hf]

/-- C3 counterexample to the claim as stated: two add_page calls with
byte-identical html (hence equal SHA-256) and no flush between them — the
batch holds 5 and only two pages are added — both return true, and after
the final flush two PageMetadata documents with that content_hash are
persisted, because add_page consults only the persisted collection, the
batch buffer is never checked, and the unique index is on url alone. -/
theorem add_page_dedup_fails_within_batch :
    (add_page demoLibs (freshStorage 5) "https://c.test/p1" "<html></html>"
      [] "c.test" 0 "w").map Prod.fst = some true ∧
    ((add_page demoLibs (freshStorage 5) "https://c.test/p1" "<html></html>"
        [] "c.test" 0 "w").bind (fun r =>
      add_page demoLibs r.2 "https://c.test/p2" "<html></html>"
        [] "c.test" 0 "w")).map Prod.fst = some true ∧
    ((add_page demoLibs (freshStorage 5) "https://c.test/p1" "<html></html>"
        [] "c.test" 0 "w").bind (fun r =>
      add_page demoLibs r.2 "https://c.test/p2" "<html></html>"
        [] "c.test" 0 "w")).map (fun r =>
      ((flush_batch r.2).metadata.filter
        (fun m => m.content_hash == "<html></html>")).length) = some 2 := by
  refine ⟨by decide, by decide, by decide⟩

/-- C3 witness: with one body-equal page already persisted, the second
add_page call returns false and leaves the state unchanged. -/
theorem add_page_dedup_witness :
    (∃ m ∈ (⟨[⟨0, "https://c.test/p1", "c.test", 0, 0, [], "<html></html>",
          13, 1, 1, "w"⟩], [], 5, [], [], 1,
          ⟨0, 0, 0, 0, 0⟩⟩ : StorageState).metadata,
        m.content_hash = demoLibs.sha256hex "<html></html>") ∧
    add_page demoLibs
      ⟨[⟨0, "https://c.test/p1", "c.test", 0, 0, [], "<html></html>",
          13, 1, 1, "w"⟩], [], 5, [], [], 1, ⟨0, 0, 0, 0, 0⟩⟩
      "https://c.test/p2" "<html></html>" [] "c.test" 0 "w" =
    some (false,
      ⟨[⟨0, "https://c.test/p1", "c.test", 0, 0, [], "<html></html>",
          13, 1, 1, "w"⟩], [], 5, [], [], 1, ⟨0, 0, 0, 0, 0⟩⟩) :=
  ⟨by decide,
   add_page_dedup_against_persisted demoLibs
     ⟨[⟨0, "https://c.test/p1", "c.test", 0, 0, [], "<html></html>",
         13, 1, 1, "w"⟩], [], 5, [], [], 1, ⟨0, 0, 0, 0, 0⟩⟩
     "https://c.test/p2" "<html></html>" [] "c.test" 0 "w" (by decide)⟩

/-- C10 (amended): add_page with the empty html string raises an uncaught
ZeroDivisionError (modelled as none) computing compression_ratio =
compressed_size / original_size, provided no already-persisted page
carries the empty string's hash; if one does, the call instead returns
false normally, so a nonempty encoding is sufficient but not necessary
for normal termination, while any html encoding to at least one byte
always terminates normally. -/
theorem add_page_empty_html_division (lib : ExtLibs) (s : StorageState)
    (url : String) (links : List String) (domain : String) (depth : ℕ)
    (wid : String) :
    ((¬ ∃ m ∈ s.metadata, m.content_hash = lib.sha256hex "") →
      add_page lib s url "" links domain depth wid = none) ∧
    (∀ html : String, 0 < utf8Len html →
      (add_page lib s url html links domain depth wid).isSome = true) := by
  constructor
  · intro h
    have hf : ¬ (s.metadata.find?
        (fun m => m.content_hash == lib.sha256hex "")).isSome = true := by
      rw [List.find?_isSome]
      rintro ⟨m, hm, he⟩
      exact h ⟨m, hm, by simpa using he⟩
    have hz : utf8Len "" = 0 := rfl
    simp [add_page, hf, hz]
  · intro html hlen
    by_cases hf : (s.metadata.find?
        (fun m => m.content_hash == lib.sha256hex html)).isSome = true
    · simp [add_page, hf]
    · have hnz : ¬ utf8Len html = 0 := by omega
      simp [add_page, hf, hnz]

/-- C10 counterexample to the claim as stated: when a persisted page
already carries the empty string's hash, add_page("") returns false and
terminates normally, so "add_page terminates normally only when html
encodes to at least one byte" does not hold unconditionally. -/
theorem add_page_empty_html_dup_returns_false :
    add_page demoLibs
      ⟨[⟨0, "https://c.test/p0", "c.test", 0, 0, [], "", 0, 0, 1, "w"⟩],
       [], 5, [], [], 1, ⟨0, 0, 0, 0, 0⟩⟩
      "https://c.test/p1" "" [] "c.test" 0 "w" =
    some (false,
      ⟨[⟨0, "https://c.test/p0", "c.test", 0, 0, [], "", 0, 0, 1, "w"⟩],
       [], 5, [], [], 1, ⟨0, 0, 0, 0, 0⟩⟩) ∧
    utf8Len "" = 0 := by
  refine ⟨by decide, rfl⟩

/-- C10 witness: on a fresh store the empty-html call dies with the
division error and a nonempty-html call terminates normally. -/
theorem add_page_empty_html_witness :
    add_page demoLibs (freshStorage 5) "https://w.test/" "" [] "w.test" 0 "w"
      = none ∧
    (add_page demoLibs (freshStorage 5) "https://w.test/" "<html></html>"
      [] "w.test" 0 "w").isSome = true :=
  ⟨(add_page_empty_html_division demoLibs (freshStorage 5) "https://w.test/"
      [] "w.test" 0 "w").1 (by decide),
   (add_page_empty_html_division demoLibs (freshStorage 5) "https://w.test/"
      [] "w.test" 0 "w").2 "<html></html>" (by decide)⟩

/-- C9 (amended): a pop whose host lease fails is requeued at reduced
priority, but the iteration still counts toward the cumulative idle time:
the idle counter increments exactly as for an empty frontier, and the
worker exits via idle timeout on this iteration iff the incremented
counter reaches idle_timeout / 5 — so an idle-timeout exit can occur while
the frontier is non-empty. -/
theorem lease_failure_counts_toward_idle (cfg : WorkerCfg) (ws : WorkerState)
    (e : Entry) (p : ℚ) (rest : List (Entry × ℚ)) (locks' : LockState)
    (hmax : maxReached cfg ws = false)
    (hpop : zpopmax ws.frontier = some ((e, p), rest))
    (hlease : (can_crawl cfg.defaultDelay ws.locks ws.time e.url
        (some (get_crawl_delay cfg.defaultDelay ws.redis e.url))).2 =
      .ok (false, locks')) :
    (startStep cfg ws).2.idleCount = ws.idleCount + 1 ∧
    (startStep cfg ws).2.frontier = re_queue_url cfg.penalty rest e p ∧
    (startStep cfg ws).2.reQueuedCount = ws.reQueuedCount + 1 ∧
    ((startStep cfg ws).1 = WorkerOutcome.exitIdle ↔
      cfg.idleTimeout / 5 ≤ ((ws.idleCount + 1 : ℕ) : ℚ)) := by
  have hpull : pull_url_from_frontier cfg ws =
      (none, { ws with
        frontier := re_queue_url cfg.penalty rest e p,
        locks := locks',
        reQueuedCount := ws.reQueuedCount + 1 }) := by
    simp only [pull_url_from_frontier, hpop, hlease]
  simp only [startStep, hmax, Bool.false_eq_true, if_false, hpull]
  by_cases hc : cfg.idleTimeout / 5 ≤ ((ws.idleCount + 1 : ℕ) : ℚ)
  · rw [if_pos hc]; push_cast at hc; simp [hc]
  · rw [if_neg hc]; push_cast at hc; simp [hc]

/-- C9 counterexample to the claim as stated: with idle_timeout 5 and a
single frontier entry whose host lock is held, one loop iteration pops
the entry, fails the lease, requeues it — and exits via idle timeout with
the frontier still non-empty, because pull_url_from_frontier returns None
for a lease failure exactly as for an empty frontier and the loop counts
it as idle time. -/
theorem worker_exits_idle_with_nonempty_frontier :
    (startStep cfg9 ws9).1 = WorkerOutcome.exitIdle ∧
    (startStep cfg9 ws9).2.frontier ≠ [] := by
  have hpop : zpopmax ws9.frontier = some ((entry9, 100), []) := by decide
  have hlease : (can_crawl cfg9.defaultDelay ws9.locks ws9.time entry9.url
      (some (get_crawl_delay cfg9.defaultDelay ws9.redis entry9.url))).2 =
      .ok (false, ws9.locks) := by rfl
  have hmax : maxReached cfg9 ws9 = false := by decide
  have hpull : pull_url_from_frontier cfg9 ws9 =
      (none, { ws9 with
        frontier := re_queue_url cfg9.penalty [] entry9 100,
        locks := ws9.locks,
        reQueuedCount := ws9.reQueuedCount + 1 }) := by
    simp only [pull_url_from_frontier, hpop, hlease]
  simp only [startStep, hmax, Bool.false_eq_true, if_false, hpull]
  have hcond : cfg9.idleTimeout / 5 ≤ (((ws9.idleCount + 1 : ℕ)) : ℚ) := by
    norm_num [cfg9, ws9]
  rw [if_pos hcond]
  simp [re_queue_url, zadd]

/-- C9 witness: the amended statement at the concrete lease-failure
iteration. -/
theorem lease_failure_counts_toward_idle_witness :
    (startStep cfg9 ws9).2.idleCount = ws9.idleCount + 1 ∧
    (startStep cfg9 ws9).2.frontier = re_queue_url cfg9.penalty [] entry9 100 ∧
    (startStep cfg9 ws9).2.reQueuedCount = ws9.reQueuedCount + 1 ∧
    ((startStep cfg9 ws9).1 = WorkerOutcome.exitIdle ↔
      cfg9.idleTimeout / 5 ≤ ((ws9.idleCount + 1 : ℕ) : ℚ)) :=
  lease_failure_counts_toward_idle cfg9 ws9 entry9 100 [] ws9.locks
    (by decide) (by decide) (by rfl)

theorem log_ratio_bounds :
    (3:ℝ)/128 ≤ Real.log (128/125) ∧ Real.log (128/125) ≤ 3/125 := by
  constructor
  · have h := Real.one_sub_inv_le_log_of_pos (show (0:ℝ) < 128/125 by norm_num)
    have h2 : ((128:ℝ)/125)⁻¹ = 125/128 := by norm_num
    rw [h2] at h
    linarith
  · have h := Real.log_le_sub_one_of_pos (show (0:ℝ) < 128/125 by norm_num)
    linarith

theorem log_thousand_bounds :
    (6.907471803:ℝ) ≤ Real.log 1000 ∧ Real.log 1000 ≤ 6.9080343705 := by
  have hL1 : (0.6931471803:ℝ) < Real.log 2 := Real.log_two_gt_d9
  have hL2 : Real.log 2 < 0.6931471808 := Real.log_two_lt_d9
  have hM : Real.log 1000 = 10 * Real.log 2 - Real.log (128/125) := by
    have h1 : (1000:ℝ) = (2:ℝ)^10 / (128/125) := by norm_num
    rw [h1, Real.log_div (by positivity) (by norm_num), Real.log_pow]
    push_cast
    ring
  rcases log_ratio_bounds with ⟨hr1, hr2⟩
  constructor
  · rw [hM]; linarith
  · rw [hM]; linarith

theorem bloom_default_x_bounds :
    (10000000:ℝ) * 6.907471803 / 0.6931471808 ^ 2 ≤
      -((10000000:ℝ) * Real.log (1/1000)) / (Real.log 2) ^ 2 ∧
    -((10000000:ℝ) * Real.log (1/1000)) / (Real.log 2) ^ 2 ≤
      (10000000:ℝ) * 6.9080343705 / 0.6931471803 ^ 2 := by
  have hL1 : (0.6931471803:ℝ) < Real.log 2 := Real.log_two_gt_d9
  have hL2 : Real.log 2 < 0.6931471808 := Real.log_two_lt_d9
  rcases log_thousand_bounds with ⟨hM1, hM2⟩
  have hlogp : Real.log ((1:ℝ)/1000) = -Real.log 1000 := by
    rw [one_div, Real.log_inv]
  have hxeq : -((10000000:ℝ) * Real.log (1/1000)) / (Real.log 2) ^ 2 =
      (10000000:ℝ) * Real.log 1000 / (Real.log 2) ^ 2 := by
    rw [hlogp]; ring
  rw [hxeq]
  have hsq_lb : (0.6931471803:ℝ) ^ 2 ≤ (Real.log 2) ^ 2 := by nlinarith
  have hsq_ub : (Real.log 2) ^ 2 ≤ (0.6931471808:ℝ) ^ 2 := by nlinarith
  have hsq_pos : (0:ℝ) < (Real.log 2) ^ 2 := by nlinarith
  constructor
  · apply div_le_div₀ (by nlinarith) (by nlinarith) hsq_pos hsq_ub
  · apply div_le_div₀ (by norm_num) (by nlinarith) (by norm_num) hsq_lb

theorem bloom_default_size_eq :
    (bloomInit 10000000 (1/1000)).size =
      ⌊-((10000000:ℝ) * Real.log (1/1000)) / (Real.log 2) ^ 2⌋ := by
  have h := bloom_default_x_bounds
  simp only [bloomInit, pyTruncR]
  rw [if_pos]
  · norm_num
  · push_cast
    nlinarith [h.1]

theorem bloom_default_k_bounds :
    (9.9:ℝ) ≤ (((bloomInit 10000000 (1/1000)).size : ℝ) / 10000000) * Real.log 2 ∧
    (((bloomInit 10000000 (1/1000)).size : ℝ) / 10000000) * Real.log 2 < 10 := by
  have hL1 : (0.6931471803:ℝ) < Real.log 2 := Real.log_two_gt_d9
  have hL2 : Real.log 2 < 0.6931471808 := Real.log_two_lt_d9
  rcases bloom_default_x_bounds with ⟨hx1, hx2⟩
  rw [bloom_default_size_eq]
  set x := -((10000000:ℝ) * Real.log (1/1000)) / (Real.log 2) ^ 2 with hxdef
  have hf1 : (⌊x⌋ : ℝ) ≤ x := Int.floor_le x
  have hf2 : x - 1 < (⌊x⌋ : ℝ) := Int.sub_one_lt_floor x
  constructor
  · nlinarith
  · nlinarith

theorem bloomInit_size_def (capacity : ℕ) (p : ℝ) :
    (bloomInit capacity p).size =
      pyTruncR (-((capacity : ℝ) * Real.log p) / (Real.log 2) ^ 2) := rfl

theorem bloomInit_hash_def (capacity : ℕ) (p : ℝ) :
    (bloomInit capacity p).hash_count =
      pyTruncR ((((bloomInit capacity p).size : ℝ) / (capacity : ℝ)) *
        Real.log 2) := rfl

theorem bloom_default_hash_count_eq_nine :
    (bloomInit 10000000 (1/1000)).hash_count = 9 := by
  rcases bloom_default_k_bounds with ⟨hk1, hk2⟩
  rw [bloomInit_hash_def]
  have hcast : (((10000000:ℕ)) : ℝ) = (10000000:ℝ) := by norm_num
  rw [hcast]
  simp only [pyTruncR]
  rw [if_pos (by linarith)]
  rw [Int.floor_eq_iff]
  constructor
  · push_cast; linarith
  · push_cast; linarith

/-- C7 counterexample to the claim as stated: at the default construction
parameters N = 10,000,000 and p = 0.001, the code's hash count —
int((m/N)·ln 2), a truncation — is 9, while the claim's ceiling formula
⌈(m/N)·ln 2⌉ evaluates to 10. -/
theorem bloom_hash_count_nine_not_ten :
    (bloomInit 10000000 (1/1000)).hash_count = 9 ∧
    ⌈(((bloomInit 10000000 (1/1000)).size : ℝ) / 10000000) * Real.log 2⌉ = 10 ∧
    (9:ℤ) ≠ 10 := by
  refine ⟨bloom_default_hash_count_eq_nine, ?_, by norm_num⟩
  rcases bloom_default_k_bounds with ⟨hk1, hk2⟩
  rw [Int.ceil_eq_iff]
  constructor
  · push_cast; linarith
  · push_cast; linarith

/-- C7 (amended): at construction with capacity N > 0 and error rate
p ∈ (0,1), the bit count equals ⌊−N·ln p / (ln 2)²⌋ and the hash count
equals ⌊(m/N)·ln 2⌋ — Python int() truncation, not the ceiling — and in
particular for N = 10,000,000 and p = 0.001 the hash count is 9. -/
theorem bloom_sizing_uses_truncation (capacity : ℕ) (p : ℝ) (hc : 0 < capacity)
    (hp : 0 < p) (hp1 : p < 1) :
    (bloomInit capacity p).size =
      ⌊-((capacity : ℝ) * Real.log p) / (Real.log 2) ^ 2⌋ ∧
    (bloomInit capacity p).hash_count =
      ⌊(((bloomInit capacity p).size : ℝ) / (capacity : ℝ)) * Real.log 2⌋ ∧
    (bloomInit 10000000 (1/1000)).hash_count = 9 := by
  have hlogp : Real.log p < 0 := Real.log_neg hp hp1
  have hcpos : (0:ℝ) < capacity := by exact_mod_cast hc
  have hxnn : 0 ≤ -((capacity : ℝ) * Real.log p) / (Real.log 2) ^ 2 := by
    apply div_nonneg
    · nlinarith
    · positivity
  refine ⟨?_, ?_, bloom_default_hash_count_eq_nine⟩
  · rw [bloomInit_size_def]; simp only [pyTruncR]; rw [if_pos hxnn]
  · have hsz : (0:ℤ) ≤ (bloomInit capacity p).size := by
      rw [bloomInit_size_def]; simp only [pyTruncR]; rw [if_pos hxnn]
      exact Int.floor_nonneg.2 hxnn
    have harg : 0 ≤ (((bloomInit capacity p).size : ℝ) / (capacity : ℝ)) *
        Real.log 2 := by
      apply mul_nonneg
      · apply div_nonneg _ (le_of_lt hcpos)
        exact_mod_cast hsz
      · exact Real.log_nonneg (by norm_num)
    rw [bloomInit_hash_def]; simp only [pyTruncR]; rw [if_pos harg]

/-- C7 witness: the amended statement at the default parameters. -/
theorem bloom_sizing_uses_truncation_witness :
    (bloomInit 10000000 (1/1000)).size =
      ⌊-(((10000000:ℕ) : ℝ) * Real.log (1/1000)) / (Real.log 2) ^ 2⌋ ∧
    (bloomInit 10000000 (1/1000)).hash_count =
      ⌊(((bloomInit 10000000 (1/1000)).size : ℝ) / ((10000000:ℕ) : ℝ)) *
        Real.log 2⌋ ∧
    (bloomInit 10000000 (1/1000)).hash_count = 9 :=
  bloom_sizing_uses_truncation 10000000 (1/1000) (by norm_num) (by norm_num)
    (by norm_num)
